import Mathlib

/-!
Verification development for the coffee networking bot
(`src/coffeeNetworkingApp.ts`, `SchedulerService`).

The TypeScript core is shallowly embedded:

* the pure classifier (`parseSchedulingResponse`, `isValidSchedulingResponse`,
  `extractDateFromResponse`) becomes pure Lean functions over `String`,
  with JavaScript wall-clock `Date` values modelled as minutes since an
  arbitrary epoch (`Nat`);
* the scheduler's mutable `Map` of reminders and the app's per-sender maps
  become explicit state records (finite maps as `String → Option _`
  functions), and every stateful method becomes a state-passing function;
* timer and cron callbacks become explicit events of small transition
  systems (`SchedStep`, `PollEvent`), so that interleavings of the fire
  callback, the hourly sweep, the 10-minute session timeout and the polling
  loop can be quantified over.
-/

namespace Coffee

/-! ## String helpers (JavaScript `includes`, digit runs, whitespace) -/

/-- Boolean substring test on character lists: `needle` occurs contiguously
inside the list.  Models JavaScript `String.prototype.includes`. -/
def isInfixB (needle : List Char) : List Char → Bool
  | [] => needle.isEmpty
  | c :: rest => needle.isPrefixOf (c :: rest) || isInfixB needle rest

/-- JavaScript `haystack.includes(needle)` on strings. -/
def containsSub (haystack needle : String) : Bool :=
  isInfixB needle.data haystack.data

/-- ASCII lowercasing of one character, as `toLowerCase` acts on the
classifier's inputs. -/
def lowerChar (c : Char) : Char :=
  if 65 ≤ c.toNat ∧ c.toNat ≤ 90 then Char.ofNat (c.toNat + 32) else c

/-- Drop leading whitespace. -/
def dropWhileWs : List Char → List Char
  | [] => []
  | c :: cs => if c.isWhitespace then dropWhileWs cs else c :: cs

/-- Trim whitespace from both ends of a character list. -/
def trimList (l : List Char) : List Char :=
  ((dropWhileWs l).reverse |> dropWhileWs).reverse

/-- JavaScript `s.toLowerCase().trim()`, the normalization every
classifier entry point applies first (ASCII case folding, which covers the
recognized keywords). -/
def toLowerTrim (s : String) : String :=
  String.mk (trimList (s.data.map lowerChar))

/-- Maximal leading run of decimal digits, with the rest of the list.
Models the greedy regex atom `\d+` (which is followed by a non-digit
requirement at every use site, so maximal munch is complete). -/
def digitRun : List Char → List Char × List Char
  | [] => ([], [])
  | c :: cs =>
    if c.isDigit then
      let p := digitRun cs
      (c :: p.1, p.2)
    else ([], c :: cs)

/-- Maximal leading run of whitespace, with the rest of the list.
Models the greedy regex atom `\s+` (always followed by a non-whitespace
requirement at its use sites). -/
def wsRun : List Char → List Char × List Char
  | [] => ([], [])
  | c :: cs =>
    if c.isWhitespace then
      let p := wsRun cs
      (c :: p.1, p.2)
    else ([], c :: cs)

/-- Numeric value of a digit run, as JavaScript `parseInt` reads it. -/
def natOfDigits (ds : List Char) : Nat :=
  ds.foldl (fun n c => n * 10 + (c.toNat - 48)) 0

/-! ## Time model

JavaScript `Date` values are modelled as whole minutes since an arbitrary
epoch whose day 0 is a Thursday (as for the Unix epoch), with no
daylight-saving adjustment.  `1440` minutes make a day; `getDay()` yields
`0` for Sunday. -/

/-- Day of week of a timestamp, `0 = Sunday`; models `Date.getDay()`. -/
def dayOfWeek (t : Nat) : Nat := (t / 1440 + 4) % 7

/-- Models `d.setHours(9, 0, 0, 0)`: same calendar day, 09:00. -/
def atNineAM (t : Nat) : Nat := (t / 1440) * 1440 + 540

/-- `SchedulerService.getTomorrowMorning` (schedulerService lines 272-277):
tomorrow at 9 AM. -/
def getTomorrowMorning (now : Nat) : Nat := (now / 1440 + 1) * 1440 + 540

/-! ## Response classifier (`SchedulerService`, schedulerService lines 110-207) -/

/-- Unit captured by the regex `in (\d+) (hour|day)s?`. -/
inductive TimeUnit
  | hour
  | day
deriving DecidableEq

/-- Attempt the pattern `in (\d+) (hour|day)s?` anchored at the head of the
list: literal `in `, one or more digits, a space, then `hour` or `day`
(the optional trailing `s` does not affect match success). -/
def hourDayAt : List Char → Option (Nat × TimeUnit)
  | 'i' :: 'n' :: ' ' :: rest =>
    let p := digitRun rest
    if p.1.isEmpty then none
    else
      match p.2 with
      | ' ' :: rest2 =>
        if ['h', 'o', 'u', 'r'].isPrefixOf rest2 then some (natOfDigits p.1, TimeUnit.hour)
        else if ['d', 'a', 'y'].isPrefixOf rest2 then some (natOfDigits p.1, TimeUnit.day)
        else none
      | _ => none
  | _ => none

/-- Leftmost match of `in (\d+) (hour|day)s?` in the list, as
`response.match(/in (\d+) (hour|day)s?/)` finds it. -/
def searchHourDay : List Char → Option (Nat × TimeUnit)
  | [] => none
  | c :: cs =>
    match hourDayAt (c :: cs) with
    | some r => some r
    | none => searchHourDay cs

/-- Attempt the pattern `in\s+(\d+)\s+(?:minutes?|mins?)` anchored at the
head: literal `in`, whitespace, digits, whitespace, then the prefix `min`
(which is exactly what the alternation `minutes?|mins?` requires for a
match). -/
def minutesAt : List Char → Option Nat
  | 'i' :: 'n' :: rest =>
    let w := wsRun rest
    if w.1.isEmpty then none
    else
      let p := digitRun w.2
      if p.1.isEmpty then none
      else
        let w2 := wsRun p.2
        if w2.1.isEmpty then none
        else if ['m', 'i', 'n'].isPrefixOf w2.2 then some (natOfDigits p.1)
        else none
  | _ => none

/-- Leftmost match of `in\s+(\d+)\s+(?:minutes?|mins?)`. -/
def searchMinutes : List Char → Option Nat
  | [] => none
  | c :: cs =>
    match minutesAt (c :: cs) with
    | some r => some r
    | none => searchMinutes cs

/-- Weekday names in the order the source array lists them
(`['sunday', ..., 'saturday']`). -/
def dayNames : List String :=
  ["sunday", "monday", "tuesday", "wednesday", "thursday", "friday", "saturday"]

/-- Index of the first weekday name (in array order) contained in the
response, as `dayNames.find(day => response.includes(day))` followed by
`indexOf` computes it. -/
def findDayNameIdx (response : String) : Option Nat :=
  dayNames.findIdx? (fun day => containsSub response day)

/-- Target date for a matched weekday name (schedulerService lines 194-203):
`daysUntil = targetDay - currentDay`, bumped by `7` when `≤ 0` (never
same-day), then that day at 9 AM. -/
def weekdayTarget (now : Nat) (targetDay : Nat) : Nat :=
  let currentDay := dayOfWeek now
  let daysUntil := if targetDay ≤ currentDay then targetDay + 7 - currentDay else targetDay - currentDay
  atNineAM (now + daysUntil * 1440)

/-- Date produced by a matched relative pattern: `setHours(+n)` adds `n`
hours, `setDate(+n)` adds `n` days. -/
def applyUnit (now : Nat) (n : Nat) : TimeUnit → Nat
  | TimeUnit.hour => now + n * 60
  | TimeUnit.day => now + n * 1440

/-- `SchedulerService.extractDateFromResponse` (schedulerService lines
163-207): the `in N hours/days` regex, then the `in N minutes` regex, then
weekday names; `none` when nothing matches.  `now` stands for the
`new Date()` the method takes internally. -/
def extractDateFromResponse (now : Nat) (response : String) : Option Nat :=
  match searchHourDay response.data with
  | some r => some (applyUnit now r.1 r.2)
  | none =>
    match searchMinutes response.data with
    | some n => some (now + n)
    | none =>
      match findDayNameIdx response with
      | some d => some (weekdayTarget now d)
      | none => none

/-- The `ScheduleOptions` record the classifier returns. -/
structure ScheduleOptions where
  sendNow : Bool := false
  sendTomorrow : Bool := false
  noReminder : Bool := false
  customDate : Option Nat := none
deriving DecidableEq

/-- `SchedulerService.parseSchedulingResponse` (schedulerService lines
135-158): lowercase and trim, then the ordered substring checks, then the
date patterns, defaulting to the tomorrow options. -/
def parseSchedulingResponse (now : Nat) (response : String) : ScheduleOptions :=
  let lowerResponse := toLowerTrim response
  if containsSub lowerResponse "now" || containsSub lowerResponse "immediately"
      || containsSub lowerResponse "send it" then
    { sendNow := true, sendTomorrow := false, noReminder := false }
  else if containsSub lowerResponse "tomorrow" || containsSub lowerResponse "morning" then
    { sendNow := false, sendTomorrow := true, noReminder := false }
  else if containsSub lowerResponse "no" || containsSub lowerResponse "never" then
    { sendNow := false, sendTomorrow := false, noReminder := true }
  else
    match extractDateFromResponse now lowerResponse with
    | some d => { sendNow := false, sendTomorrow := false, noReminder := false, customDate := some d }
    | none => { sendNow := false, sendTomorrow := true, noReminder := false }

/-- `SchedulerService.isValidSchedulingResponse` (schedulerService lines
110-133): the same ordered checks, reporting only whether one matched. -/
def isValidSchedulingResponse (now : Nat) (response : String) : Bool :=
  let lowerResponse := toLowerTrim response
  if containsSub lowerResponse "now" || containsSub lowerResponse "immediately"
      || containsSub lowerResponse "send it" then
    true
  else if containsSub lowerResponse "tomorrow" || containsSub lowerResponse "morning" then
    true
  else if containsSub lowerResponse "no" || containsSub lowerResponse "never" then
    true
  else
    (extractDateFromResponse now lowerResponse).isSome

/-- The scheduling directive of the specification, as a tagged variant. -/
inductive Directive
  | Now
  | Tomorrow
  | NoReminder
  | CustomAt (t : Nat)
deriving DecidableEq

/-- The rule (1-5) cascade of `parseSchedulingResponse`, instrumented to
report `none` exactly when the final fallback branch would be taken. -/
def classifyRule (now : Nat) (response : String) : Option Directive :=
  let lowerResponse := toLowerTrim response
  if containsSub lowerResponse "now" || containsSub lowerResponse "immediately"
      || containsSub lowerResponse "send it" then
    some Directive.Now
  else if containsSub lowerResponse "tomorrow" || containsSub lowerResponse "morning" then
    some Directive.Tomorrow
  else if containsSub lowerResponse "no" || containsSub lowerResponse "never" then
    some Directive.NoReminder
  else
    (extractDateFromResponse now lowerResponse).map Directive.CustomAt

/-- Options record corresponding to each directive. -/
def directiveOptions : Directive → ScheduleOptions
  | Directive.Now => { sendNow := true, sendTomorrow := false, noReminder := false }
  | Directive.Tomorrow => { sendNow := false, sendTomorrow := true, noReminder := false }
  | Directive.NoReminder => { sendNow := false, sendTomorrow := false, noReminder := true }
  | Directive.CustomAt d =>
    { sendNow := false, sendTomorrow := false, noReminder := false, customDate := some d }

/-- The fallback options value of the classifier's last branch. -/
def tomorrowDefault : ScheduleOptions :=
  { sendNow := false, sendTomorrow := true, noReminder := false }

/-! ## Small list helpers for the event models -/

/-- Boolean membership in a list of strings. -/
def memB (a : String) : List String → Bool
  | [] => false
  | b :: l => if b = a then true else memB a l

/-- Number of occurrences of a string in a list. -/
def countB (a : String) : List String → Nat
  | [] => 0
  | b :: l => (if b = a then 1 else 0) + countB a l

/-- Remove the first occurrence of a string from a list. -/
def removeFirst (a : String) : List String → List String
  | [] => []
  | b :: l => if b = a then l else b :: removeFirst a l

/-- Boolean membership for (sender, due-time) timer records. -/
def timerMem (p : String × Nat) : List (String × Nat) → Bool
  | [] => false
  | q :: l => if q = p then true else timerMem p l

/-- Remove the first occurrence of a timer record. -/
def timerRemove (p : String × Nat) : List (String × Nat) → List (String × Nat)
  | [] => []
  | q :: l => if q = p then l else q :: timerRemove p l

/-! ## Reminder scheduler (`SchedulerService`, schedulerService lines 13-303)

The `Map<string, ScheduledReminder>` is a function map from reminder id to
record.  The record's `task?: cron.ScheduledTask` field is modelled by
`taskActive`: `true` while a started, unstopped cron task exists for the
entry.  `execLog` records one entry (the reminder id of the call site) for
every run of `executeReminder`, so "the registered action executed" is
observable; `firing` holds the ids whose fire callback sits between the
`await this.executeReminder(...)` and the subsequent status update — the
one suspension point inside the callback. -/

/-- Reminder status, `'pending' | 'sent' | 'cancelled'`. -/
inductive RStatus
  | pending
  | sent
  | cancelled
deriving DecidableEq

/-- The `ScheduledReminder` record (schedulerService lines 4-11). -/
structure Reminder where
  id : String
  contactId : Nat
  message : String
  scheduledFor : Nat
  status : RStatus
  taskActive : Bool
deriving DecidableEq

/-- State of a `SchedulerService` instance. -/
structure SchedulerState where
  reminders : String → Option Reminder
  firing : List String
  execLog : List String

/-- A scheduler with no reminders and no executions. -/
def emptySched : SchedulerState :=
  { reminders := fun _ => none, firing := [], execLog := [] }

/-- `SchedulerService.generateReminderId` (schedulerService lines 282-284):
`reminder_` ++ contact id ++ `_` ++ `Date.now()`. -/
def generateReminderId (contactId : Nat) (now : Nat) : String :=
  "reminder_" ++ toString contactId ++ "_" ++ toString now

/-- `SchedulerService.cancelReminder` (schedulerService lines 212-223): when
the id maps to a `pending` reminder, stop its task, mark it cancelled and
delete it from the map, returning `true`; in every other case return
`false` without touching anything. -/
def cancelReminder (s : SchedulerState) (reminderId : String) : Bool × SchedulerState :=
  match s.reminders reminderId with
  | some r =>
    if r.status = RStatus.pending then
      (true, { s with reminders := fun k => if k = reminderId then none else s.reminders k })
    else (false, s)
  | none => (false, s)

/-- `SchedulerService.scheduleReminder` (schedulerService lines 29-75):
generate the id, cancel any existing reminder under it, then either run the
action at once (`options.immediate`, returning without recording anything)
or record a `pending` reminder with a started cron task.  `now` is the
`Date.now()` used by `generateReminderId`. -/
def scheduleReminder (s : SchedulerState) (contactId : Nat) (message : String)
    (scheduledFor : Nat) (now : Nat) (immediate : Bool) : String × SchedulerState :=
  let reminderId := generateReminderId contactId now
  let s1 := (cancelReminder s reminderId).2
  if immediate then
    (reminderId, { s1 with execLog := s1.execLog ++ [reminderId] })
  else
    (reminderId,
      { s1 with
        reminders := fun k =>
          if k = reminderId then
            some { id := reminderId, contactId := contactId, message := message,
                   scheduledFor := scheduledFor, status := RStatus.pending, taskActive := true }
          else s1.reminders k })

/-- `SchedulerService.cleanupCompletedReminders` (schedulerService lines
289-303): delete every entry whose status is not `pending`. -/
def cleanupCompletedReminders (s : SchedulerState) : SchedulerState :=
  { s with
    reminders := fun k =>
      match s.reminders k with
      | some r => if r.status = RStatus.pending then some r else none
      | none => none }

/-- Whether the cron task of `id` can trigger: the entry exists with a
started, unstopped task, and its callback is not already in flight (the
one-shot pattern `m h d M *` next recurs a year later, so a second trigger
cannot arrive while the callback's single awaited send is pending). -/
def fireEnabled (s : SchedulerState) (id : String) : Bool :=
  match s.reminders id with
  | some r => r.taskActive && !(memB id s.firing)
  | none => false

/-- Events that can interleave on a live scheduler: the two halves of the
fire callback (schedulerService lines 48-55) around its `await`, the hourly
cleanup sweep (line 21), and `cancelReminder`. -/
inductive SchedStep
  | fireStart (id : String)
  | fireEnd (id : String)
  | sweep
  | cancel (id : String)

/-- One event.  `fireStart` runs `executeReminder` (the registered action)
and suspends; `fireEnd` resumes after the `await`, re-reads the map and, if
the entry is still there, marks it `sent` and stops its task. -/
def schedStep (s : SchedulerState) : SchedStep → SchedulerState
  | SchedStep.fireStart id =>
    if fireEnabled s id then
      { s with execLog := s.execLog ++ [id], firing := id :: s.firing }
    else s
  | SchedStep.fireEnd id =>
    if memB id s.firing then
      { s with
        firing := removeFirst id s.firing,
        reminders := fun k =>
          if k = id then
            (s.reminders id).map fun r => { r with status := RStatus.sent, taskActive := false }
          else s.reminders k }
    else s
  | SchedStep.sweep => cleanupCompletedReminders s
  | SchedStep.cancel id => (cancelReminder s id).2

/-- Run a sequence of scheduler events. -/
def runSched (s : SchedulerState) : List SchedStep → SchedulerState
  | [] => s
  | st :: rest => runSched (schedStep s st) rest

/-- Whether an entry, when present, is `pending`. -/
def statusPendingB : Option Reminder → Bool
  | some r => decide (r.status = RStatus.pending)
  | none => true

/-- Whether an entry, when present with an active task, is `pending`. -/
def pendingIfActive : Option Reminder → Bool
  | some r => !r.taskActive || decide (r.status = RStatus.pending)
  | none => true

/-- Invariant of a live reminder id: its action ran at most once; once it
ran, the task can no longer trigger; at most one callback for it is in
flight; while a callback is in flight the entry (if present) is `pending`;
and an entry with an active task is `pending`. -/
def SchedInv (s : SchedulerState) (id : String) : Prop :=
  countB id s.execLog ≤ 1
  ∧ (countB id s.execLog = 1 → fireEnabled s id = false)
  ∧ countB id s.firing ≤ 1
  ∧ (memB id s.firing = true → statusPendingB (s.reminders id) = true)
  ∧ pendingIfActive (s.reminders id) = true

/-- Per-step status discipline for an id: whenever an event leaves the
entry in the map, its status either stays put or moves `pending → sent`. -/
def statusStepOk (s : SchedulerState) (id : String) : Prop :=
  ∀ (step : SchedStep) (r r' : Reminder), s.reminders id = some r →
    (schedStep s step).reminders id = some r' →
    r'.status = r.status ∨ (r.status = RStatus.pending ∧ r'.status = RStatus.sent)

/-- `SchedulerService.scheduleBasedOnPreference` (schedulerService lines
80-102): `sendNow` fires immediately at `new Date()`, `sendTomorrow` and
the default use tomorrow 9 AM, `customDate` is used as given, `noReminder`
returns the empty id without scheduling. -/
def scheduleBasedOnPreference (s : SchedulerState) (contactId : Nat) (message : String)
    (preference : ScheduleOptions) (now : Nat) : String × SchedulerState :=
  if preference.sendNow then
    scheduleReminder s contactId message now now true
  else if preference.sendTomorrow then
    scheduleReminder s contactId message (getTomorrowMorning now) now false
  else
    match preference.customDate with
    | some d => scheduleReminder s contactId message d now false
    | none =>
      if preference.noReminder then ("", s)
      else scheduleReminder s contactId message (getTomorrowMorning now) now false

/-! ## Conversation controller (`CoffeeNetworkingApp`, coffeeNetworkingApp.ts)

The three per-sender maps (`pendingFollowUpResponses`, `pendingContacts`,
`pendingDraftMessages`) are function maps keyed by sender; the
`setTimeout` registered at line 344 becomes an explicit `(sender, due)`
record in `flagTimers`, fired by the `flagTimerFire` event.  Side effects
on the collaborators (iMessage transport, contact store) are returned as
an `Action` list. -/

/-- Follow-up status of a stored contact (types/index.ts). -/
inductive FollowUpStatus
  | pending
  | scheduled
  | sent
  | completed
deriving DecidableEq

/-- The draft contact record (`Omit<Contact, 'id'>` of types/index.ts). -/
structure Contact where
  name : String
  event : String
  context : Option String := none
  metAt : Nat
  phoneNumber : Option String := none
  email : Option String := none
  followUpStatus : FollowUpStatus
  scheduledFollowUp : Option Nat := none
  lastInteraction : Option Nat := none
  notes : Option String := none
deriving DecidableEq

/-- The partial-update record passed to `database.updateContact`. -/
structure ContactUpdate where
  followUpStatus : Option FollowUpStatus := none
  scheduledFollowUp : Option Nat := none
deriving DecidableEq

/-- Collaborator side effects the controller issues, in order. -/
inductive Action
  | send (recipient : String) (text : String)
  | addContact (c : Contact)
  | updateContact (id : Nat) (upd : ContactUpdate)
deriving DecidableEq

/-- Per-sender session state of the app, plus the outstanding flag-deletion
timers. -/
structure AppState where
  pendingFollowUpResponses : String → Bool
  pendingContacts : String → Option Contact
  pendingDraftMessages : String → Option String
  flagTimers : List (String × Nat)

/-- An app with no pending interactions and no outstanding timers. -/
def initApp : AppState :=
  { pendingFollowUpResponses := fun _ => false,
    pendingContacts := fun _ => none,
    pendingDraftMessages := fun _ => none,
    flagTimers := [] }

/-- The session TTL: `10 * 60 * 1000` ms at coffeeNetworkingApp.ts line
346, i.e. 10 minutes in the minute-based time model. -/
def sessionTTL : Nat := 10

/-- Installing a pending interaction for a sender, at `now`: the contact is
stored (coffeeNetworkingApp.ts line 275), the draft message is stored
(line 334), the awaiting-reply flag is set (line 341) and a deletion timer
for the flag is registered for `now + TTL` (lines 344-346).  Nothing
cancels a previously registered timer for the same sender. -/
def beginSession (st : AppState) (sender : String) (c : Contact) (draft : String)
    (now : Nat) : AppState :=
  { pendingFollowUpResponses := fun k => if k = sender then true else st.pendingFollowUpResponses k,
    pendingContacts := fun k => if k = sender then some c else st.pendingContacts k,
    pendingDraftMessages := fun k => if k = sender then some draft else st.pendingDraftMessages k,
    flagTimers := (sender, now + sessionTTL) :: st.flagTimers }

/-- Expiry of one registered 10-minute timer (the `setTimeout` callback at
coffeeNetworkingApp.ts lines 344-346): it deletes the sender's
awaiting-reply flag — and nothing else.  A timer record that was never
registered does nothing. -/
def flagTimerFire (st : AppState) (sender : String) (due : Nat) : AppState :=
  if timerMem (sender, due) st.flagTimers then
    { st with
      flagTimers := timerRemove (sender, due) st.flagTimers,
      pendingFollowUpResponses := fun k => if k = sender then false else st.pendingFollowUpResponses k }
  else st

/-- `CoffeeNetworkingApp.clearPendingData` (coffeeNetworkingApp.ts lines
440-444): delete the flag, the draft contact and the draft message for the
sender.  The registered timeout is not cancelled. -/
def clearPendingData (st : AppState) (sender : String) : AppState :=
  { st with
    pendingFollowUpResponses := fun k => if k = sender then false else st.pendingFollowUpResponses k,
    pendingContacts := fun k => if k = sender then none else st.pendingContacts k,
    pendingDraftMessages := fun k => if k = sender then none else st.pendingDraftMessages k }

/-- The read the controller performs on the session store
(`this.pendingFollowUpResponses.has(message.sender)` at
coffeeNetworkingApp.ts lines 225 and 358): presence of the flag, with no
time argument. -/
def hasPendingResponse (st : AppState) (sender : String) : Bool :=
  st.pendingFollowUpResponses sender

/-- The re-prompt sent for an unrecognized scheduling reply
(coffeeNetworkingApp.ts line 383). -/
def repromptMessage : String :=
  "Please respond with:\n- \"now\" - Send it immediately\n- \"tomorrow\" - Remind me tomorrow morning\n- \"in X minutes/hours\" - Remind me later\n- \"no\" - Don\x27t set a reminder\n- \"cancel\" - Don\x27t save contact"

/-- The reminder payload built at coffeeNetworkingApp.ts line 401. -/
def reminderMessageFor (name draftMessage : String) : String :=
  "Time to follow up with " ++ name ++ ". Here\x27s your draft message:\n\n\"" ++ draftMessage
    ++ "\"\n\nReady to send?"

/-- The confirmation text of coffeeNetworkingApp.ts lines 406-412, by
preference. -/
def schedulingMessageFor (preference : ScheduleOptions) (name draftMessage : String) : String :=
  if preference.sendNow then
    "Here\x27s your message for " ++ name ++ ":\n\n\"" ++ draftMessage
      ++ "\"\n\nCopy and send when ready"
  else if preference.sendTomorrow then
    "I\x27ll remind you tomorrow morning (9:00 AM) to follow up with " ++ name
  else
    match preference.customDate with
    | some d => "Reminder set for " ++ name ++ " at " ++ toString d
    | none => "Reminder set for " ++ name

/-- `CoffeeNetworkingApp.handleSchedulingResponse` (coffeeNetworkingApp.ts
lines 357-435), as a function of the app state, the scheduler state, the
inbound reply and the contact id the store will allocate.  Returns the new
states and the collaborator actions in program order. -/
def handleSchedulingResponse (st : AppState) (sched : SchedulerState)
    (sender response : String) (now : Nat) (newContactId : Nat) :
    AppState × SchedulerState × List Action :=
  if hasPendingResponse st sender = false then (st, sched, [])
  else
    match st.pendingContacts sender, st.pendingDraftMessages sender with
    | some contact, some draftMessage =>
      if toLowerTrim response = "cancel" then
        (clearPendingData st sender, sched, [Action.send sender "Cancelled. Contact not saved."])
      else
        let schedulePreference := parseSchedulingResponse now response
        if isValidSchedulingResponse now response = false then
          (st, sched, [Action.send sender repromptMessage])
        else if schedulePreference.noReminder then
          (clearPendingData st sender, sched,
            [Action.addContact contact,
             Action.updateContact newContactId { followUpStatus := some FollowUpStatus.completed },
             Action.send sender (contact.name ++ " saved with no reminder set.")])
        else
          let fire := scheduleBasedOnPreference sched newContactId
            (reminderMessageFor contact.name draftMessage) schedulePreference now
          if fire.1 = "" then
            (clearPendingData st sender, fire.2, [Action.addContact contact])
          else
            (clearPendingData st sender, fire.2,
              [Action.addContact contact,
               Action.send sender (schedulingMessageFor schedulePreference contact.name draftMessage),
               Action.updateContact newContactId
                 { followUpStatus := some (if schedulePreference.sendNow then FollowUpStatus.sent
                     else FollowUpStatus.scheduled),
                   scheduledFollowUp := schedulePreference.customDate }])
    | _, _ =>
      (clearPendingData st sender, sched,
        [Action.send sender ("Error: " ++ "Contact data not found. Please try again.")])

/-! ## Polling loop (`CoffeeNetworkingApp.checkForNewMessages`,
coffeeNetworkingApp.ts lines 136-181)

Each 3-second interval tick runs `checkForNewMessages`.  The body reads
`isProcessingMessage` (line 137), then `await`s `getMessages` (line 141),
and only after that — having checked the message id against
`lastProcessedMessageId` (line 159) — sets the flag (line 165), handles
the message, records the id and clears the flag (lines 168-170).  Two
consecutive ticks on the same fresh inbound message are modelled with
explicit phases around the two suspension points; `cancelClear1` is the
`this.isProcessingMessage = false` that `handleCancelCommand` performs in
the middle of handling (line 473). -/

/-- Progress of one poll tick through `checkForNewMessages`. -/
inductive TickPhase
  | idle
  | passedGuard
  | processing
  | done
  | skipped
deriving DecidableEq

/-- State of the polling loop: the serialization flag, the last processed
message id, and the phase of two interleaving ticks, both of which will
observe the same fresh inbound message. -/
structure PollState where
  isProcessingMessage : Bool
  lastProcessedMessageId : Option String
  tick1 : TickPhase
  tick2 : TickPhase
deriving DecidableEq

/-- Initial polling state: flag clear, nothing processed yet. -/
def initPoll : PollState :=
  { isProcessingMessage := false, lastProcessedMessageId := none,
    tick1 := TickPhase.idle, tick2 := TickPhase.idle }

/-- Id of the fresh inbound message both ticks observe (assumed to pass the
30-second recency check). -/
def msgId : String := "m1"

/-- Scheduler-visible events of the polling loop. -/
inductive PollEvent
  | guard1
  | guard2
  | resume1
  | resume2
  | finish1
  | finish2
  | cancelClear1

/-- One event.  `guardN` runs the `if (this.isProcessingMessage) return`
check and suspends on `getMessages`; `resumeN` resumes with the poll
result, runs the id/recency check and, when it passes, sets the flag and
enters `handleDetectedMessage`; `finishN` completes the handling, records
the id and clears the flag; `cancelClear1` is `handleCancelCommand`
clearing the flag while tick 1 is still processing. -/
def pollStep (s : PollState) : PollEvent → PollState
  | PollEvent.guard1 =>
    if s.tick1 = TickPhase.idle then
      if s.isProcessingMessage then { s with tick1 := TickPhase.skipped }
      else { s with tick1 := TickPhase.passedGuard }
    else s
  | PollEvent.guard2 =>
    if s.tick2 = TickPhase.idle then
      if s.isProcessingMessage then { s with tick2 := TickPhase.skipped }
      else { s with tick2 := TickPhase.passedGuard }
    else s
  | PollEvent.resume1 =>
    if s.tick1 = TickPhase.passedGuard then
      if s.lastProcessedMessageId = some msgId then { s with tick1 := TickPhase.skipped }
      else { s with isProcessingMessage := true, tick1 := TickPhase.processing }
    else s
  | PollEvent.resume2 =>
    if s.tick2 = TickPhase.passedGuard then
      if s.lastProcessedMessageId = some msgId then { s with tick2 := TickPhase.skipped }
      else { s with isProcessingMessage := true, tick2 := TickPhase.processing }
    else s
  | PollEvent.finish1 =>
    if s.tick1 = TickPhase.processing then
      { s with lastProcessedMessageId := some msgId, isProcessingMessage := false,
               tick1 := TickPhase.done }
    else s
  | PollEvent.finish2 =>
    if s.tick2 = TickPhase.processing then
      { s with lastProcessedMessageId := some msgId, isProcessingMessage := false,
               tick2 := TickPhase.done }
    else s
  | PollEvent.cancelClear1 =>
    if s.tick1 = TickPhase.processing then { s with isProcessingMessage := false }
    else s

/-- Run a sequence of polling events. -/
def runPoll (s : PollState) : List PollEvent → PollState
  | [] => s
  | e :: rest => runPoll (pollStep s e) rest

/-- How many ticks are currently inside `handleDetectedMessage`. -/
def processingCount (s : PollState) : Nat :=
  (if s.tick1 = TickPhase.processing then 1 else 0)
    + (if s.tick2 = TickPhase.processing then 1 else 0)

/-! ## Concrete states used by witnesses and counterexamples -/

/-- A draft contact as built from the trigger of Scenario A. -/
def sarah : Contact :=
  { name := "Sarah", event := "conference", context := some "she does AI research",
    metAt := 0, followUpStatus := FollowUpStatus.pending }

/-- A second draft contact, used to exercise replacement. -/
def benjamin : Contact :=
  { name := "Benjamin Franklin", event := "Penn", metAt := 5,
    followUpStatus := FollowUpStatus.pending }

/-- An app awaiting Alice's scheduling reply since time 0. -/
def awaitingApp : AppState := beginSession initApp "alice" sarah "draft-msg" 0

/-- Scheduler state right after a (non-immediate) registration at
`Date.now() = 90` for contact 3, fire-at 500. -/
def schedEx : SchedulerState := (scheduleReminder emptySched 3 "hello" 500 90 false).2

/-- The id generated by that registration. -/
def exId : String := generateReminderId 3 90

/-- An adversarial interleaving: sweeps run before, between and after the
two halves of the fire callback, with a late cancel and a retrigger
attempt. -/
def exTrace : List SchedStep :=
  [SchedStep.sweep, SchedStep.fireStart exId, SchedStep.sweep, SchedStep.fireEnd exId,
   SchedStep.sweep, SchedStep.fireStart exId, SchedStep.cancel exId, SchedStep.fireStart exId]

/-- App state after: Alice begins an interaction at time 0 (timer due 10),
begins a replacing interaction at time 5 (timer due 15), and then the
first interaction's deletion timer fires at its due time 10. -/
def c7state : AppState :=
  flagTimerFire (beginSession awaitingApp "alice" benjamin "d2" 5) "alice" (0 + sessionTTL)

/-! ## Helper lemmas -/

/-- Occurrence counts add over list append. -/
theorem countB_append (a : String) (l1 l2 : List String) :
    countB a (l1 ++ l2) = countB a l1 + countB a l2 := by
  induction l1 with
  | nil => simp [countB]
  | cons b l ih => simp [countB, ih]; omega

/-- A string with no occurrences is not a member. -/
theorem memB_eq_false_of_countB_eq_zero (a : String) (l : List String)
    (h : countB a l = 0) : memB a l = false := by
  induction l with
  | nil => rfl
  | cons b l ih =>
    by_cases hb : b = a
    · simp [countB, hb] at h
    · simp [memB, hb]
      exact ih (by simpa [countB, hb] using h)

/-- A member occurs at least once. -/
theorem countB_pos_of_memB (a : String) (l : List String) (h : memB a l = true) :
    1 ≤ countB a l := by
  induction l with
  | nil => simp [memB] at h
  | cons b l ih =>
    by_cases hb : b = a
    · simp [countB, hb]
    · simp [memB, hb] at h
      have := ih h
      simp [countB, hb]
      omega

/-- Removing one occurrence of a string lowers its count by one. -/
theorem countB_removeFirst_self (a : String) (l : List String) :
    countB a (removeFirst a l) = countB a l - 1 := by
  induction l with
  | nil => rfl
  | cons b l ih =>
    by_cases hb : b = a
    · simp [removeFirst, countB, hb]
    · simp [removeFirst, countB, hb, ih]

/-- Removing an occurrence of a different string keeps the count. -/
theorem countB_removeFirst_ne (a b : String) (l : List String) (hab : a ≠ b) :
    countB a (removeFirst b l) = countB a l := by
  induction l with
  | nil => rfl
  | cons c l ih =>
    by_cases hc : c = b
    · subst hc
      have hca : ¬ c = a := fun h => hab h.symm
      simp [removeFirst, countB, hca]
    · simp [removeFirst, countB, hc, ih]

/-- Removing an occurrence of a different string keeps membership. -/
theorem memB_removeFirst_ne (a b : String) (l : List String) (hab : a ≠ b) :
    memB a (removeFirst b l) = memB a l := by
  induction l with
  | nil => rfl
  | cons c l ih =>
    by_cases hc : c = b
    · subst hc
      have hca : ¬ c = a := fun h => hab h.symm
      simp [removeFirst, memB, hca]
    · simp [removeFirst, memB, hc, ih]

/-- `cancelReminder` touches only the reminder map. -/
theorem cancelReminder_frame (s : SchedulerState) (id : String) :
    (cancelReminder s id).2.execLog = s.execLog ∧ (cancelReminder s id).2.firing = s.firing := by
  unfold cancelReminder
  cases s.reminders id with
  | none => exact ⟨rfl, rfl⟩
  | some r =>
    by_cases hp : r.status = RStatus.pending <;> simp [hp]

/-- An id whose callback is in flight cannot retrigger. -/
theorem fireEnabled_false_of_memB (s : SchedulerState) (id : String)
    (h : memB id s.firing = true) : fireEnabled s id = false := by
  unfold fireEnabled
  cases s.reminders id with
  | none => rfl
  | some r => simp [h]

/-- `fireEnabled` depends only on the id's entry and its in-flight mark. -/
theorem fireEnabled_congr (s s' : SchedulerState) (id : String)
    (h1 : s'.reminders id = s.reminders id) (h2 : memB id s'.firing = memB id s.firing) :
    fireEnabled s' id = fireEnabled s id := by
  unfold fireEnabled
  rw [h1, h2]

/-- A non-member occurs zero times. -/
theorem countB_eq_zero_of_memB_false (a : String) (l : List String)
    (h : memB a l = false) : countB a l = 0 := by
  induction l with
  | nil => rfl
  | cons b l ih =>
    by_cases hb : b = a
    · simp [memB, hb] at h
    · simp [memB, hb] at h
      simp [countB, hb, ih h]

/-- An enabled id has an entry with an active task and no callback in
flight. -/
theorem of_fireEnabled (s : SchedulerState) (id : String) (g : fireEnabled s id = true) :
    memB id s.firing = false
    ∧ ∃ r, s.reminders id = some r ∧ r.taskActive = true := by
  unfold fireEnabled at g
  cases hr : s.reminders id with
  | none => rw [hr] at g; exact absurd g (by simp)
  | some r =>
    rw [hr] at g
    simp only [Bool.and_eq_true, Bool.not_eq_true'] at g
    exact ⟨g.2, r, rfl, g.1⟩

/-- Pointwise description of the sweep's effect on the reminder map. -/
theorem cleanup_reminders_eq (s : SchedulerState) (k : String) :
    (cleanupCompletedReminders s).reminders k
      = match s.reminders k with
        | some r => if r.status = RStatus.pending then some r else none
        | none => none := rfl

/-- Every scheduler event preserves the liveness invariant of an id. -/
theorem schedInv_step (s : SchedulerState) (id : String) (step : SchedStep)
    (h : SchedInv s id) : SchedInv (schedStep s step) id := by
  obtain ⟨h1, h2, h3, h4, h5⟩ := h
  cases step with
  | fireStart idf =>
    by_cases g : fireEnabled s idf = true
    · simp only [schedStep, g, if_true]
      by_cases hid : idf = id
      · subst hid
        obtain ⟨hmem, r, hr, ht⟩ := of_fireEnabled s idf g
        have hcnt0 : countB idf s.execLog = 0 := by
          by_cases c1 : countB idf s.execLog = 1
          · exact absurd (h2 c1) (by simp [g])
          · omega
        have hpend : statusPendingB (s.reminders idf) = true := by
          have h5' : pendingIfActive (some r) = true := hr ▸ h5
          rw [hr]
          simp only [pendingIfActive, ht, Bool.not_true, Bool.false_or] at h5'
          simp only [statusPendingB]
          exact h5'
        refine ⟨?_, ?_, ?_, ?_, h5⟩
        · simp [countB_append, countB, hcnt0]
        · intro _
          exact fireEnabled_false_of_memB _ idf (by simp [memB])
        · simp [countB, countB_eq_zero_of_memB_false idf s.firing hmem]
        · intro _
          exact hpend
      · have hne : ¬ idf = id := hid
        refine ⟨?_, ?_, ?_, ?_, h5⟩
        · simpa [countB_append, countB, hne] using h1
        · intro hE
          have hE' : countB id s.execLog = 1 := by
            simpa [countB_append, countB, hne] using hE
          have := h2 hE'
          calc fireEnabled { s with execLog := s.execLog ++ [idf], firing := idf :: s.firing } id
              = fireEnabled s id := fireEnabled_congr _ _ _ rfl (by simp [memB, hne])
            _ = false := this
        · simpa [countB, hne] using h3
        · intro hm
          exact h4 (by simpa [memB, hne] using hm)
    · simp only [schedStep, g, if_false]
      exact ⟨h1, h2, h3, h4, h5⟩
  | fireEnd idf =>
    by_cases m : memB idf s.firing = true
    · simp only [schedStep, m, if_true]
      by_cases hid : idf = id
      · subst hid
        have hc1 : countB idf s.firing = 1 :=
          Nat.le_antisymm h3 (countB_pos_of_memB idf s.firing m)
        have hm' : memB idf (removeFirst idf s.firing) = false :=
          memB_eq_false_of_countB_eq_zero _ _ (by rw [countB_removeFirst_self, hc1])
        refine ⟨h1, ?_, ?_, ?_, ?_⟩
        · intro _
          show fireEnabled _ idf = false
          unfold fireEnabled
          cases hh : s.reminders idf with
          | none => simp [hh]
          | some r => simp [hh]
        · rw [countB_removeFirst_self, hc1]
          omega
        · intro hmm
          rw [hm'] at hmm
          exact absurd hmm (by simp)
        · show pendingIfActive _ = true
          cases hh : s.reminders idf with
          | none => simp [hh, pendingIfActive]
          | some r => simp [hh, pendingIfActive]
      · have hne : ¬ id = idf := fun hh => hid hh.symm
        refine ⟨h1, ?_, ?_, ?_, ?_⟩
        · intro hE
          calc fireEnabled _ id
              = fireEnabled s id := by
                refine fireEnabled_congr _ _ _ ?_ ?_
                · show (if id = idf then _ else s.reminders id) = s.reminders id
                  simp [hne]
                · exact memB_removeFirst_ne id idf s.firing hne
            _ = false := h2 hE
        · simpa [countB_removeFirst_ne id idf s.firing hne] using h3
        · intro hm
          have : memB id s.firing = true := by
            rwa [memB_removeFirst_ne id idf s.firing hne] at hm
          have h4' := h4 this
          show statusPendingB (if id = idf then _ else s.reminders id) = true
          simpa [hne] using h4'
        · show pendingIfActive (if id = idf then _ else s.reminders id) = true
          simpa [hne] using h5
    · simp only [schedStep, m, if_false]
      exact ⟨h1, h2, h3, h4, h5⟩
  | sweep =>
    refine ⟨h1, ?_, h3, ?_, ?_⟩
    · intro hE
      have hfe := h2 hE
      show fireEnabled (cleanupCompletedReminders s) id = false
      cases hr : s.reminders id with
      | none =>
        unfold fireEnabled
        rw [cleanup_reminders_eq, hr]
      | some r =>
        by_cases hp : r.status = RStatus.pending
        · calc fireEnabled (cleanupCompletedReminders s) id
              = fireEnabled s id := by
                refine fireEnabled_congr _ _ _ ?_ rfl
                rw [cleanup_reminders_eq, hr]
                simp [hp, hr]
          _ = false := hfe
        · unfold fireEnabled
          rw [cleanup_reminders_eq, hr]
          simp [hp]
    · intro hm
      have h4' := h4 hm
      show statusPendingB ((cleanupCompletedReminders s).reminders id) = true
      rw [cleanup_reminders_eq]
      cases hr : s.reminders id with
      | none => simp [statusPendingB]
      | some r =>
        rw [hr] at h4'
        have hp : r.status = RStatus.pending := by simpa [statusPendingB] using h4'
        simp [hp, statusPendingB]
    · show pendingIfActive ((cleanupCompletedReminders s).reminders id) = true
      rw [cleanup_reminders_eq]
      cases hr : s.reminders id with
      | none => simp [pendingIfActive]
      | some r =>
        rw [hr] at h5
        by_cases hp : r.status = RStatus.pending
        · simpa [hp] using h5
        · simp [hp, pendingIfActive]
  | cancel idf =>
    show SchedInv (cancelReminder s idf).2 id
    unfold cancelReminder
    cases hr : s.reminders idf with
    | none => exact ⟨h1, h2, h3, h4, h5⟩
    | some r =>
      by_cases hp : r.status = RStatus.pending
      · simp only [hp, if_true]
        by_cases hid : id = idf
        · subst hid
          refine ⟨h1, ?_, h3, ?_, ?_⟩
          · intro _
            unfold fireEnabled
            simp
          · intro _
            simp [statusPendingB]
          · simp [pendingIfActive]
        · refine ⟨h1, ?_, h3, ?_, ?_⟩
          · intro hE
            calc fireEnabled _ id
                = fireEnabled s id := by
                  refine fireEnabled_congr _ _ _ ?_ rfl
                  show (if id = idf then none else s.reminders id) = s.reminders id
                  simp [hid]
              _ = false := h2 hE
          · intro hm
            have h4' := h4 hm
            show statusPendingB (if id = idf then none else s.reminders id) = true
            simpa [hid] using h4'
          · show pendingIfActive (if id = idf then none else s.reminders id) = true
            simpa [hid] using h5
      · simp only [hp, if_false]
        exact ⟨h1, h2, h3, h4, h5⟩

/-- The invariant is preserved along any event sequence. -/
theorem schedInv_run (s : SchedulerState) (id : String) (tr : List SchedStep)
    (h : SchedInv s id) : SchedInv (runSched s tr) id := by
  induction tr generalizing s with
  | nil => exact h
  | cons st rest ih => exact ih _ (schedInv_step s id st h)

/-- From an invariant state, every event respects the status discipline. -/
theorem statusStepOk_of_inv (s : SchedulerState) (id : String) (h : SchedInv s id) :
    statusStepOk s id := by
  obtain ⟨h1, h2, h3, h4, h5⟩ := h
  intro step r r' hr hr'
  cases step with
  | fireStart idf =>
    left
    by_cases g : fireEnabled s idf = true
    · simp only [schedStep] at hr'
      rw [if_pos g, hr] at hr'
      cases hr'
      rfl
    · simp only [schedStep] at hr'
      rw [if_neg g, hr] at hr'
      cases hr'
      rfl
  | fireEnd idf =>
    by_cases m : memB idf s.firing = true
    · simp only [schedStep] at hr'
      rw [if_pos m] at hr'
      by_cases hid : id = idf
      · subst hid
        right
        simp only [if_pos rfl, hr, Option.map_some'] at hr'
        cases hr'
        have hp : r.status = RStatus.pending := by
          have := h4 m
          rw [hr] at this
          simpa [statusPendingB] using this
        exact ⟨hp, rfl⟩
      · left
        simp only [if_neg hid] at hr'
        rw [hr] at hr'
        cases hr'
        rfl
    · simp only [schedStep] at hr'
      rw [if_neg m, hr] at hr'
      cases hr'
      exact Or.inl rfl
  | sweep =>
    left
    have hcl : (schedStep s SchedStep.sweep).reminders id
        = (cleanupCompletedReminders s).reminders id := rfl
    rw [hcl, cleanup_reminders_eq, hr] at hr'
    by_cases hp : r.status = RStatus.pending
    · simp only [hp, if_true] at hr'
      cases hr'
      rfl
    · simp only [hp, if_false] at hr'
      cases hr'
  | cancel idf =>
    left
    have hcc : (schedStep s (SchedStep.cancel idf)) = (cancelReminder s idf).2 := rfl
    rw [hcc] at hr'
    unfold cancelReminder at hr'
    cases hrf : s.reminders idf with
    | none => rw [hrf] at hr'; simp only at hr'; rw [hr] at hr'; cases hr'; rfl
    | some rr =>
      rw [hrf] at hr'
      by_cases hp : rr.status = RStatus.pending
      · simp only [hp, if_true] at hr'
        by_cases hid : id = idf
        · rw [if_pos hid] at hr'
          cases hr'
        · rw [if_neg hid] at hr'
          rw [hr] at hr'
          cases hr'
          rfl
      · simp only [hp, if_false] at hr'
        rw [hr] at hr'
        cases hr'
        rfl

/-- The two classifier entry points run the same rule cascade:
`parseSchedulingResponse` is the instrumented cascade with the tomorrow
fallback plugged into the `none` case. -/
theorem parse_eq_classifyRule (now : Nat) (r : String) :
    parseSchedulingResponse now r
      = match classifyRule now r with
        | some d => directiveOptions d
        | none => tomorrowDefault := by
  unfold parseSchedulingResponse classifyRule
  by_cases c1 : (containsSub (toLowerTrim r) "now" || containsSub (toLowerTrim r) "immediately"
      || containsSub (toLowerTrim r) "send it") = true
  · simp [c1, directiveOptions]
  · by_cases c2 : (containsSub (toLowerTrim r) "tomorrow"
        || containsSub (toLowerTrim r) "morning") = true
    · simp [c1, c2, directiveOptions]
    · by_cases c3 : (containsSub (toLowerTrim r) "no" || containsSub (toLowerTrim r) "never") = true
      · simp [c1, c2, c3, directiveOptions]
      · cases hx : extractDateFromResponse now (toLowerTrim r) with
        | none => simp [c1, c2, c3, hx, tomorrowDefault]
        | some d => simp [c1, c2, c3, hx, directiveOptions]

/-- `isValidSchedulingResponse` reports exactly whether the cascade
resolves before its fallback. -/
theorem isValid_eq_classifyRule_isSome (now : Nat) (r : String) :
    isValidSchedulingResponse now r = (classifyRule now r).isSome := by
  unfold isValidSchedulingResponse classifyRule
  by_cases c1 : (containsSub (toLowerTrim r) "now" || containsSub (toLowerTrim r) "immediately"
      || containsSub (toLowerTrim r) "send it") = true
  · simp [c1]
  · by_cases c2 : (containsSub (toLowerTrim r) "tomorrow"
        || containsSub (toLowerTrim r) "morning") = true
    · simp [c1, c2]
    · by_cases c3 : (containsSub (toLowerTrim r) "no" || containsSub (toLowerTrim r) "never") = true
      · simp [c1, c2, c3]
      · cases hx : extractDateFromResponse now (toLowerTrim r) with
        | none => simp [c1, c2, c3, hx]
        | some d => simp [c1, c2, c3, hx]

/-- The weekday rule always lands strictly in the future. -/
theorem weekdayTarget_gt_now (now td : Nat) : now < weekdayTarget now td := by
  simp only [weekdayTarget, atNineAM, dayOfWeek]
  split <;> omega

/-- Every date the relative and weekday rules produce is at or after
`now`. -/
theorem extractDate_ge_now (now : Nat) (r : String) (d : Nat)
    (h : extractDateFromResponse now r = some d) : now ≤ d := by
  unfold extractDateFromResponse at h
  cases hs : searchHourDay r.data with
  | some p =>
    rw [hs] at h
    cases h
    cases hu : p.2 <;> simp [applyUnit, hu]
  | none =>
    rw [hs] at h
    cases hm : searchMinutes r.data with
    | some n =>
      rw [hm] at h
      cases h
      omega
    | none =>
      rw [hm] at h
      cases hd : findDayNameIdx r with
      | some td =>
        rw [hd] at h
        cases h
        exact le_of_lt (weekdayTarget_gt_now now td)
      | none =>
        rw [hd] at h
        cases h

/-! ## Claim theorems -/

/-- C1: for every scheduled reminder, along any interleaving of fire
callbacks, hourly cleanup sweeps and cancels, the registered action
executes at most once for the reminder's id, and every step moves an
in-map status only as `pending → sent` (cancellation and sweeping remove
entries; they never fire them).  The hypothesis is the liveness invariant,
which holds in particular for a freshly scheduled reminder. -/
theorem scheduled_reminder_fires_at_most_once (s0 : SchedulerState) (id : String)
    (h : SchedInv s0 id) :
    ∀ tr : List SchedStep,
      countB id (runSched s0 tr).execLog ≤ 1 ∧ statusStepOk (runSched s0 tr) id :=
  fun tr =>
    ⟨(schedInv_run s0 id tr h).1,
     statusStepOk_of_inv (runSched s0 tr) id (schedInv_run s0 id tr h)⟩

/-- Witness for C1: a concrete freshly scheduled reminder, driven through
sweeps around both halves of its fire, a cancel and two retrigger
attempts, still executes at most once. -/
theorem scheduled_reminder_fires_at_most_once_witness :
    countB exId (runSched schedEx exTrace).execLog ≤ 1 :=
  (scheduled_reminder_fires_at_most_once schedEx exId (by unfold SchedInv; decide) exTrace).1

/-- C2 counterexample: a registration whose fire-at time (50) is before
`now` (100) neither fires at registration (the execution log stays empty)
nor is recorded as `Sent` — it is recorded as `pending`; and the
`immediate` path, which does fire synchronously, records nothing in the
live set at all. -/
theorem schedule_past_fireAt_cex :
    (50 ≤ 100
      ∧ (scheduleReminder emptySched 7 "msg" 50 100 false).2.execLog = []
      ∧ ((scheduleReminder emptySched 7 "msg" 50 100 false).2.reminders
          (generateReminderId 7 100)).map Reminder.status = some RStatus.pending)
  ∧ ¬ ((scheduleReminder emptySched 7 "msg" 50 100 false).2.reminders
        (generateReminderId 7 100)).map Reminder.status = some RStatus.sent
  ∧ (scheduleReminder emptySched 7 "msg" 100 100 true).2.reminders
      (generateReminderId 7 100) = none := by decide

/-- C2 amended: `scheduleReminder` fires synchronously only when the
caller passes `immediate: true` (done exactly for the `Now` directive),
and then the reminder is not recorded in the live set; every other
registration is recorded `pending` with the given fire-at time unchanged
(no clamping) and does not fire at registration.  The directive-resolved
times themselves are always ≥ `now`. -/
theorem schedule_immediate_vs_recorded (s : SchedulerState) (contactId : Nat)
    (message : String) (scheduledFor now : Nat) :
    (scheduleReminder s contactId message scheduledFor now true).2.execLog
      = (cancelReminder s (generateReminderId contactId now)).2.execLog
          ++ [generateReminderId contactId now]
  ∧ (scheduleReminder s contactId message scheduledFor now true).2.reminders
      = (cancelReminder s (generateReminderId contactId now)).2.reminders
  ∧ (scheduleReminder s contactId message scheduledFor now false).2.execLog = s.execLog
  ∧ (scheduleReminder s contactId message scheduledFor now false).2.reminders
      (generateReminderId contactId now)
      = some { id := generateReminderId contactId now, contactId := contactId,
               message := message, scheduledFor := scheduledFor,
               status := RStatus.pending, taskActive := true }
  ∧ (∀ r d, extractDateFromResponse now r = some d → now ≤ d)
  ∧ now < getTomorrowMorning now := by
  refine ⟨rfl, rfl, ?_, by simp [scheduleReminder], extractDate_ge_now now, ?_⟩
  · show ((cancelReminder s (generateReminderId contactId now)).2.execLog) = s.execLog
    exact (cancelReminder_frame s (generateReminderId contactId now)).1
  · unfold getTomorrowMorning
    omega

/-- C3 counterexample: the pending interaction installed for Alice at time
0 has its 10-minute deletion timer still outstanding, yet a read
(performed at any wall-clock moment, e.g. 11 ≥ 0 + TTL) still reports it
present: the read consults presence only — there is no expiry timestamp
to check, so an expired-but-unswept entry is not treated as absent. -/
theorem expired_unswept_entry_still_observed :
    sessionTTL ≤ 11
  ∧ timerMem ("alice", 0 + sessionTTL) awaitingApp.flagTimers = true
  ∧ hasPendingResponse awaitingApp "alice" = true := by decide

/-- C3 amended: expiry is enforced eagerly by the one-shot deletion timer
registered at `begin` for creation + TTL, not by reads: before the timer
fires a peek returns the interaction, and once the timer fires the flag is
gone, so a peek returns absent. -/
theorem session_expiry_via_timer_only (st : AppState) (sender : String) (c : Contact)
    (draft : String) (t : Nat) :
    (beginSession st sender c draft t).flagTimers = (sender, t + sessionTTL) :: st.flagTimers
  ∧ hasPendingResponse (beginSession st sender c draft t) sender = true
  ∧ hasPendingResponse
      (flagTimerFire (beginSession st sender c draft t) sender (t + sessionTTL)) sender
      = false := by
  refine ⟨rfl, by simp [beginSession, hasPendingResponse], ?_⟩
  have hm : timerMem (sender, t + sessionTTL) (beginSession st sender c draft t).flagTimers
      = true := by
    simp [beginSession, timerMem]
  unfold flagTimerFire
  simp [hm, hasPendingResponse]

/-- C4: the classifier is a total function whose result is determined by
the instrumented rule cascade (conjunct 1), with the fixed precedence:
rule 1 (`now`/`immediately`/`send it`) dominates rule 2
(`tomorrow`/`morning`), which dominates rule 3 (`no`/`never`), which
dominates the relative patterns, which dominate weekday names; and
`"now or tomorrow"` classifies as `Now`. -/
theorem classifier_total_with_fixed_precedence (now : Nat) (response : String) :
    (parseSchedulingResponse now response
      = match classifyRule now response with
        | some d => directiveOptions d
        | none => tomorrowDefault)
  ∧ (containsSub (toLowerTrim response) "now" = true →
      classifyRule now response = some Directive.Now)
  ∧ ((containsSub (toLowerTrim response) "now" || containsSub (toLowerTrim response) "immediately"
        || containsSub (toLowerTrim response) "send it") = false →
      (containsSub (toLowerTrim response) "tomorrow"
        || containsSub (toLowerTrim response) "morning") = true →
      classifyRule now response = some Directive.Tomorrow)
  ∧ ((containsSub (toLowerTrim response) "now" || containsSub (toLowerTrim response) "immediately"
        || containsSub (toLowerTrim response) "send it") = false →
      (containsSub (toLowerTrim response) "tomorrow"
        || containsSub (toLowerTrim response) "morning") = false →
      (containsSub (toLowerTrim response) "no" || containsSub (toLowerTrim response) "never") = true →
      classifyRule now response = some Directive.NoReminder)
  ∧ (∀ dt : Nat,
      (containsSub (toLowerTrim response) "now" || containsSub (toLowerTrim response) "immediately"
        || containsSub (toLowerTrim response) "send it") = false →
      (containsSub (toLowerTrim response) "tomorrow"
        || containsSub (toLowerTrim response) "morning") = false →
      (containsSub (toLowerTrim response) "no" || containsSub (toLowerTrim response) "never") = false →
      extractDateFromResponse now (toLowerTrim response) = some dt →
      classifyRule now response = some (Directive.CustomAt dt))
  ∧ (∀ n : Nat,
      (containsSub (toLowerTrim response) "now" || containsSub (toLowerTrim response) "immediately"
        || containsSub (toLowerTrim response) "send it") = false →
      (containsSub (toLowerTrim response) "tomorrow"
        || containsSub (toLowerTrim response) "morning") = false →
      (containsSub (toLowerTrim response) "no" || containsSub (toLowerTrim response) "never") = false →
      searchHourDay (toLowerTrim response).data = none →
      searchMinutes (toLowerTrim response).data = some n →
      classifyRule now response = some (Directive.CustomAt (now + n)))
  ∧ (∀ dd : Nat,
      (containsSub (toLowerTrim response) "now" || containsSub (toLowerTrim response) "immediately"
        || containsSub (toLowerTrim response) "send it") = false →
      (containsSub (toLowerTrim response) "tomorrow"
        || containsSub (toLowerTrim response) "morning") = false →
      (containsSub (toLowerTrim response) "no" || containsSub (toLowerTrim response) "never") = false →
      searchHourDay (toLowerTrim response).data = none →
      searchMinutes (toLowerTrim response).data = none →
      findDayNameIdx (toLowerTrim response) = some dd →
      classifyRule now response = some (Directive.CustomAt (weekdayTarget now dd)))
  ∧ classifyRule now "now or tomorrow" = some Directive.Now := by
  refine ⟨parse_eq_classifyRule now response, ?_, ?_, ?_, ?_, ?_, ?_, ?_⟩
  · intro h
    unfold classifyRule
    simp [h]
  · intro h1 h2
    unfold classifyRule
    simp [h1, h2]
  · intro h1 h2 h3
    unfold classifyRule
    simp [h1, h2, h3]
  · intro dt h1 h2 h3 hx
    unfold classifyRule
    simp [h1, h2, h3, hx]
  · intro n h1 h2 h3 hhd hmin
    unfold classifyRule extractDateFromResponse
    simp [h1, h2, h3, hhd, hmin]
  · intro dd h1 h2 h3 hhd hmin hday
    unfold classifyRule extractDateFromResponse
    simp [h1, h2, h3, hhd, hmin, hday]
  · have hc : containsSub (toLowerTrim "now or tomorrow") "now" = true := by decide
    unfold classifyRule
    simp [hc]

/-- C5: `isValidSchedulingResponse` reports true exactly when the rule
cascade of `parseSchedulingResponse` resolves by rules 1-5 (conjunct 2);
for unrecognized text the classifier still returns the concrete `Tomorrow`
fallback options (conjunct 3); and the controller checks validity before
committing, so on an unrecognized reply it emits the re-prompt and leaves
the pending interaction and the scheduler unchanged (conjunct 1). -/
theorem unrecognized_reply_reprompts_only (now : Nat) (st : AppState) (sched : SchedulerState)
    (sender response : String) (cid : Nat) (c : Contact) (d : String)
    (hflag : hasPendingResponse st sender = true)
    (hc : st.pendingContacts sender = some c)
    (hd : st.pendingDraftMessages sender = some d)
    (hcancel : ¬ toLowerTrim response = "cancel")
    (hinvalid : isValidSchedulingResponse now response = false) :
    handleSchedulingResponse st sched sender response now cid
      = (st, sched, [Action.send sender repromptMessage])
  ∧ (∀ r' : String, isValidSchedulingResponse now r' = (classifyRule now r').isSome)
  ∧ (∀ r' : String, isValidSchedulingResponse now r' = false →
      parseSchedulingResponse now r' = tomorrowDefault) := by
  refine ⟨?_, fun r' => isValid_eq_classifyRule_isSome now r', fun r' hv => ?_⟩
  · unfold handleSchedulingResponse
    simp [hflag, hc, hd, hcancel, hinvalid]
  · have h1 := parse_eq_classifyRule now r'
    have h2 := isValid_eq_classifyRule_isSome now r'
    rw [hv] at h2
    cases hcr : classifyRule now r' with
    | some d0 => rw [hcr] at h2; simp at h2
    | none => rw [hcr] at h1; exact h1

/-- Witness for C5: awaiting Alice's reply, the unrecognized reply `blah`
yields exactly the re-prompt, with the pending interaction retained. -/
theorem unrecognized_reply_reprompts_only_witness :
    handleSchedulingResponse awaitingApp emptySched "alice" "blah" 100 1
      = (awaitingApp, emptySched, [Action.send "alice" repromptMessage]) :=
  (unrecognized_reply_reprompts_only 100 awaitingApp emptySched "alice" "blah" 1 sarah
    "draft-msg" (by decide) (by decide) (by decide) (by decide) (by decide)).1

/-- C6: `cancelReminder` returns true exactly when the id maps to a
`pending` reminder, which it then removes, touching nothing else; in
every other case (already fired, already cancelled and so swept out, or
unknown id) it returns false and the scheduler state is unchanged.  The
Lean function's totality reflects that the method never raises. -/
theorem cancel_true_iff_pending (s : SchedulerState) (id : String) :
    ((cancelReminder s id).1 = true ↔
      ∃ r, s.reminders id = some r ∧ r.status = RStatus.pending)
  ∧ ((cancelReminder s id).1 = false → (cancelReminder s id).2 = s)
  ∧ ((cancelReminder s id).1 = true →
      (cancelReminder s id).2.reminders id = none
      ∧ (∀ k, ¬ k = id → (cancelReminder s id).2.reminders k = s.reminders k)
      ∧ (cancelReminder s id).2.execLog = s.execLog
      ∧ (cancelReminder s id).2.firing = s.firing) := by
  unfold cancelReminder
  cases hr : s.reminders id with
  | none =>
    refine ⟨by simp, fun _ => rfl, fun h => absurd h (by simp)⟩
  | some r =>
    by_cases hp : r.status = RStatus.pending
    · simp only [hp, if_true]
      refine ⟨?_, ?_, ?_⟩
      · simp [hp]
      · intro h
        exact absurd h (by simp)
      · intro _
        exact ⟨by simp, fun k hk => by simp [hk], by trivial, by trivial⟩
    · simp only [hp, if_false]
      refine ⟨?_, fun _ => by trivial, fun h => absurd h (by simp)⟩
      constructor
      · intro h
        exact absurd h (by simp)
      · rintro ⟨r', hr', hp'⟩
        injection hr' with he
        subst he
        exact absurd hp' hp

/-- C7 counterexample: Alice begins at time 0, a replacing begin happens
at time 5 while the first interaction is still observable; after the first
begin's timer fires at its due time 10, a peek at time 11 — strictly
inside the replacement's claimed full window ending at 15 — already finds
the interaction absent, even though the replacement's draft data is still
installed. -/
theorem replacement_ttl_truncated_cex :
    hasPendingResponse (beginSession awaitingApp "alice" benjamin "d2" 5) "alice" = true
  ∧ (beginSession awaitingApp "alice" benjamin "d2" 5).pendingContacts "alice" = some benjamin
  ∧ (beginSession awaitingApp "alice" benjamin "d2" 5).pendingDraftMessages "alice" = some "d2"
  ∧ 11 < 5 + sessionTTL
  ∧ hasPendingResponse c7state "alice" = false
  ∧ c7state.pendingContacts "alice" = some benjamin := by decide

/-- C7 amended: a begin unconditionally replaces the sender's pending
interaction (last writer wins, nothing merged) and registers its own fresh
timer for creation + TTL, leaving other senders untouched; but timers from
earlier begins remain outstanding (the new head is consed onto the old
list), and each deletes the flag when it fires, so the replacement's
observable window can end before creation + TTL. -/
theorem begin_replaces_with_fresh_timer (st : AppState) (sender : String) (c : Contact)
    (draft : String) (now : Nat) :
    (beginSession st sender c draft now).pendingContacts sender = some c
  ∧ (beginSession st sender c draft now).pendingDraftMessages sender = some draft
  ∧ hasPendingResponse (beginSession st sender c draft now) sender = true
  ∧ (beginSession st sender c draft now).flagTimers
      = (sender, now + sessionTTL) :: st.flagTimers
  ∧ (∀ k, ¬ k = sender →
      (beginSession st sender c draft now).pendingContacts k = st.pendingContacts k
      ∧ (beginSession st sender c draft now).pendingDraftMessages k = st.pendingDraftMessages k
      ∧ (beginSession st sender c draft now).pendingFollowUpResponses k
          = st.pendingFollowUpResponses k) := by
  refine ⟨by simp [beginSession], by simp [beginSession],
    by simp [beginSession, hasPendingResponse], rfl, ?_⟩
  intro k hk
  exact ⟨by simp [beginSession, hk], by simp [beginSession, hk], by simp [beginSession, hk]⟩

/-- C8 (code bug evidence): two poll ticks that both pass the
`isProcessingMessage` check before either sets it (the check precedes the
`getMessages` await, the assignment follows it) both end up inside
`handleDetectedMessage` at once for the same message; likewise a tick
whose `handleCancelCommand` clears the flag mid-handling lets a second
tick process concurrently.  Both traces put two ticks in the processing
phase simultaneously, contradicting at-most-one-inbound-message
processing. -/
theorem serialization_flag_race :
    processingCount (runPoll initPoll
      [PollEvent.guard1, PollEvent.guard2, PollEvent.resume1, PollEvent.resume2]) = 2
  ∧ processingCount (runPoll initPoll
      [PollEvent.guard1, PollEvent.resume1, PollEvent.cancelClear1,
       PollEvent.guard2, PollEvent.resume2]) = 2 := by decide

/-- C9: an awaiting-reply sender whose reply classifies as `NoReminder`
gets the draft contact persisted (`addContact`), the stored status set to
`completed` (`updateContact`), a confirmation sent, the session cleared —
and the scheduler state untouched, so no `ScheduledReminder` is created. -/
theorem no_reminder_persists_completes_clears (now : Nat) (st : AppState)
    (sched : SchedulerState) (sender response : String) (cid : Nat) (c : Contact) (d : String)
    (hflag : hasPendingResponse st sender = true)
    (hc : st.pendingContacts sender = some c)
    (hd : st.pendingDraftMessages sender = some d)
    (hcancel : ¬ toLowerTrim response = "cancel")
    (hvalid : isValidSchedulingResponse now response = true)
    (hno : (parseSchedulingResponse now response).noReminder = true) :
    handleSchedulingResponse st sched sender response now cid
      = (clearPendingData st sender, sched,
         [Action.addContact c,
          Action.updateContact cid { followUpStatus := some FollowUpStatus.completed },
          Action.send sender (c.name ++ " saved with no reminder set.")]) := by
  unfold handleSchedulingResponse
  simp [hflag, hc, hd, hcancel, hvalid, hno]

/-- Witness for C9: awaiting Alice's reply, the reply `no` persists Sarah,
marks her completed, confirms, clears the session and leaves the scheduler
empty. -/
theorem no_reminder_persists_completes_clears_witness :
    handleSchedulingResponse awaitingApp emptySched "alice" "no" 100 1
      = (clearPendingData awaitingApp "alice", emptySched,
         [Action.addContact sarah,
          Action.updateContact 1 { followUpStatus := some FollowUpStatus.completed },
          Action.send "alice" (sarah.name ++ " saved with no reminder set.")]) :=
  no_reminder_persists_completes_clears 100 awaitingApp emptySched "alice" "no" 1 sarah
    "draft-msg" (by decide) (by decide) (by decide) (by decide) (by decide) (by decide)

/-- C10: when a 10-minute timer fires, only the awaiting-reply flag for
that sender is removed — the stored draft contact and draft message maps
are untouched (and if the timer record is absent nothing changes at all);
`clearPendingData`, used by resolution, cancel, error paths and overwrite,
is what removes all three entries. -/
theorem ttl_timer_removes_only_flag (st : AppState) (sender : String) (due : Nat) :
    (flagTimerFire st sender due).pendingContacts = st.pendingContacts
  ∧ (flagTimerFire st sender due).pendingDraftMessages = st.pendingDraftMessages
  ∧ (hasPendingResponse (flagTimerFire st sender due) sender = false
      ∨ flagTimerFire st sender due = st)
  ∧ (clearPendingData st sender).pendingContacts sender = none
  ∧ (clearPendingData st sender).pendingDraftMessages sender = none
  ∧ hasPendingResponse (clearPendingData st sender) sender = false
  ∧ (clearPendingData st sender).flagTimers = st.flagTimers := by
  unfold flagTimerFire clearPendingData hasPendingResponse
  by_cases hm : timerMem (sender, due) st.flagTimers = true
  · simp [hm]
  · simp [hm]

end Coffee
